import Mathlib

set_option maxHeartbeats 1000000
set_option maxRecDepth 10000

/-
Verification of the secure project-persistence subsystem of Simple-HDRI-Viewer:
the envelope-encryption service (SecureCryptoService), the base64 codec it uses,
and the save/load paths of AppComponent.  Byte buffers (Uint8Array contents) are
modelled as lists of `Fin 256`; the WebCrypto AES-GCM primitive is modelled as an
executable authenticated cipher (keystream masking plus a 16-byte tag over key,
nonce and ciphertext) with the AEAD interface the service relies on; asynchronous
failure (rejected promises / thrown exceptions) is modelled with `Option` and
`Except`.
-/

namespace SHV

/-- Bytes as stored in a Uint8Array: natural numbers below 256. -/
abbrev Byte := Fin 256

/-- Truncation of a natural number to a byte, as a Uint8Array store performs. -/
def mkByte (n : Nat) : Byte := ⟨n % 256, Nat.mod_lt n (by decide)⟩

/-! ### Binary/Text codec: embedding of arrayBufferToBase64 / base64ToArrayBuffer
(SecureCryptoService utils, which delegate to window.btoa / window.atob over the
byte-per-character binary string). -/

/-- The radix-64 alphabet used by window.btoa / window.atob. -/
def b64Alphabet : List Char :=
  ['A','B','C','D','E','F','G','H','I','J','K','L','M',
   'N','O','P','Q','R','S','T','U','V','W','X','Y','Z',
   'a','b','c','d','e','f','g','h','i','j','k','l','m',
   'n','o','p','q','r','s','t','u','v','w','x','y','z',
   '0','1','2','3','4','5','6','7','8','9','+','/']

/-- The alphabet character for a six-bit group. -/
def sextet (n : Nat) : Char := b64Alphabet.getD n 'A'

/-- Embedding of SecureCryptoService.arrayBufferToBase64: the bytes are turned into
a binary string and encoded by window.btoa — standard base64, three bytes per four
characters, padded with one or two trailing signs for a short final group. -/
def arrayBufferToBase64 : List Byte → List Char
  | [] => []
  | [a] => [sextet (a.val / 4), sextet (a.val % 4 * 16), '=', '=']
  | [a, b] => [sextet (a.val / 4), sextet (a.val % 4 * 16 + b.val / 16),
               sextet (b.val % 16 * 4), '=']
  | a :: b :: c :: rest =>
      sextet (a.val / 4) :: sextet (a.val % 4 * 16 + b.val / 16) ::
      sextet (b.val % 16 * 4 + c.val / 64) :: sextet (c.val % 64) ::
      arrayBufferToBase64 rest

/-- The six-bit value of an alphabet character; none for a character outside the
alphabet (window.atob throws on those). -/
def base64CharVal (c : Char) : Option Nat :=
  let i := b64Alphabet.indexOf c
  if i < 64 then some i else none

/-- Decoding of one four-character group, honouring trailing padding. -/
def decode4 (c1 c2 c3 c4 : Char) : Option (List Byte) :=
  (base64CharVal c1).bind fun v1 =>
  (base64CharVal c2).bind fun v2 =>
  if c3 = '=' then
    (if c4 = '=' then some [mkByte (v1 * 4 + v2 / 16)] else none)
  else
    (base64CharVal c3).bind fun v3 =>
    if c4 = '=' then
      some [mkByte (v1 * 4 + v2 / 16), mkByte (v2 % 16 * 16 + v3 / 4)]
    else
      (base64CharVal c4).bind fun v4 =>
      some [mkByte (v1 * 4 + v2 / 16), mkByte (v2 % 16 * 16 + v3 / 4),
            mkByte (v3 % 4 * 64 + v4)]

/-- Embedding of SecureCryptoService.base64ToArrayBuffer: window.atob followed by a
charCodeAt loop.  Inputs whose length is not a multiple of four, or containing a
character outside the alphabet, make atob throw — modelled by none. -/
def base64ToArrayBuffer : List Char → Option (List Byte)
  | [] => some []
  | c1 :: c2 :: c3 :: c4 :: rest =>
    match decode4 c1 c2 c3 c4, base64ToArrayBuffer rest with
    | some chunk, some tail => some (chunk ++ tail)
    | _, _ => none
  | _ => none

/-! ### Model of the AEAD primitive (window.crypto.subtle, AES-GCM)
The browser primitive is an authenticated cipher: encryption under a key and a
nonce is invertible, and decryption verifies an authentication tag over key,
nonce and ciphertext, failing closed on any mismatch.  It is modelled here as an
executable cipher with exactly that interface: a keystream mask (invertible) plus
a 16-byte tag appended to the ciphertext, recomputed and compared on decryption. -/

/-- Sum of the bytes of a buffer, used by the model keystream and tag. -/
def byteSum (l : List Byte) : Nat := l.foldr (fun x s => x.val + s) 0

/-- The model keystream byte at position i under a key and a nonce. -/
def keystream (key iv : List Byte) (i : Nat) : Nat :=
  byteSum key * 131 + byteSum iv * 31 + i * 7 + 3

/-- Masking of a plaintext with the keystream, starting at position i. -/
def maskBytes (key iv : List Byte) : Nat → List Byte → List Byte
  | _, [] => []
  | i, p :: rest => mkByte (p.val + keystream key iv i) :: maskBytes key iv (i + 1) rest

/-- Inverse of the masking. -/
def unmaskBytes (key iv : List Byte) : Nat → List Byte → List Byte
  | _, [] => []
  | i, c :: rest =>
      mkByte (c.val + 256 - keystream key iv i % 256) :: unmaskBytes key iv (i + 1) rest

/-- The 16-byte authentication tag over key, nonce and ciphertext body. -/
def aeadTag (key iv ct : List Byte) : List Byte :=
  (List.range 16).map fun j =>
    mkByte (byteSum key * 3 + byteSum iv * 5 + byteSum ct * 7 + ct.length * 11 + j)

/-- Model of window.crypto.subtle.encrypt with AES-GCM: masked plaintext followed
by the authentication tag. -/
def aeadEncrypt (key iv pt : List Byte) : List Byte :=
  let body := maskBytes key iv 0 pt
  body ++ aeadTag key iv body

/-- Model of window.crypto.subtle.decrypt with AES-GCM: reject short inputs,
recompute and compare the tag, then unmask; none models the thrown
OperationError on authentication failure. -/
def aeadDecrypt (key iv ct : List Byte) : Option (List Byte) :=
  if ct.length < 16 then none
  else
    let body := ct.take (ct.length - 16)
    let tag := ct.drop (ct.length - 16)
    if tag = aeadTag key iv body then some (unmaskBytes key iv 0 body) else none

/-! ### Key Manager: embedding of SecureCryptoService.getAppKey -/

/-- Obfuscated key part, from the source: "SHV_2025" XORed with 0x42. -/
def SEED_A : List Nat := [17, 6, 20, 29, 112, 114, 112, 119]

/-- Obfuscated key part, from the source: "_AES_GCM" XORed with 0x42. -/
def SEED_B : List Nat := [29, 127, 7, 17, 29, 5, 1, 15]

/-- Obfuscated key part, from the source: "_SECRET_" XORed with 0x42. -/
def SEED_C : List Nat := [29, 17, 7, 1, 16, 7, 22, 29]

/-- Obfuscated key part, from the source: "KEY_777!" XORed with 0x42. -/
def SEED_D : List Nat := [9, 7, 27, 29, 121, 121, 121, 99]

/-- The application key (KEK) bytes reconstructed by getAppKey: the four seed
arrays concatenated, each byte XORed with the 0x42 mask. -/
def appKeyBytes : List Byte :=
  (SEED_A ++ SEED_B ++ SEED_C ++ SEED_D).map fun b => mkByte (b ^^^ 0x42)

/-- The ASCII bytes of a string. -/
def asciiBytes (s : String) : List Byte := s.toList.map fun c => mkByte c.toNat

/-- Memory trace of one un-cached call to getAppKey: the material imported into
the CryptoKey handle, and the contents of the keyBytes buffer when the call
returns — the source clears that buffer with keyBytes.fill(0) right after the
import. -/
structure AppKeyTrace where
  importedKeyBytes : List Byte
  keyBytesFinal : List Byte

/-- Embedding of the body of getAppKey on a first (cache-miss) call. -/
def getAppKeyTrace : AppKeyTrace :=
  let combined := SEED_A ++ SEED_B ++ SEED_C ++ SEED_D
  let keyBytes := combined.map fun b => mkByte (b ^^^ 0x42)
  { importedKeyBytes := keyBytes,
    keyBytesFinal := List.replicate keyBytes.length (mkByte 0) }

/-! ### Envelope Cipher: embedding of encryptBlobEnvelope / decryptBlobEnvelope
The randomness the source draws (generateKey for the DEK, getRandomValues for the
two nonces) is passed in explicitly, so the functions are quantified over every
choice of DEK and nonces. -/

/-- The four text-encoded fields returned by encryptBlobEnvelope. -/
structure EncryptedPacket where
  data : List Char
  iv : List Char
  wrappedKey : List Char
  keyIv : List Char
  deriving DecidableEq

/-- Embedding of SecureCryptoService.encryptBlobEnvelope: encrypt the blob bytes
with the DEK under the content nonce, wrap the exported raw DEK with the KEK
under the key nonce, and base64-encode all four buffers. -/
def encryptBlobEnvelope (blobBytes dek iv keyIv : List Byte) : EncryptedPacket :=
  let encryptedBuffer := aeadEncrypt dek iv blobBytes
  let dekRaw := dek
  let wrappedKeyBuffer := aeadEncrypt appKeyBytes keyIv dekRaw
  { data := arrayBufferToBase64 encryptedBuffer,
    iv := arrayBufferToBase64 iv,
    wrappedKey := arrayBufferToBase64 wrappedKeyBuffer,
    keyIv := arrayBufferToBase64 keyIv }

/-- Memory trace of encryptBlobEnvelope: the packet together with the contents of
the exported raw-DEK buffer at the moment the function returns.  The source
exports the DEK with exportKey("raw"), wraps it, and returns — it never writes to
the dekRaw buffer afterwards (there is no dekRaw.fill(0)), so the buffer still
holds the DEK bytes. -/
structure EnvelopeTrace where
  packet : EncryptedPacket
  dekRawFinal : List Byte

/-- Embedding of encryptBlobEnvelope with its raw-DEK buffer tracked. -/
def encryptBlobEnvelopeTrace (blobBytes dek iv keyIv : List Byte) : EnvelopeTrace :=
  let encryptedBuffer := aeadEncrypt dek iv blobBytes
  let dekRaw := dek
  let wrappedKeyBuffer := aeadEncrypt appKeyBytes keyIv dekRaw
  { packet :=
      { data := arrayBufferToBase64 encryptedBuffer,
        iv := arrayBufferToBase64 iv,
        wrappedKey := arrayBufferToBase64 wrappedKeyBuffer,
        keyIv := arrayBufferToBase64 keyIv },
    dekRawFinal := dekRaw }

/-- Embedding of SecureCryptoService.decryptBlobEnvelope: decode the key nonce
and wrapped key, unwrap the DEK under the KEK, decode the content nonce and
ciphertext, decrypt with the DEK.  Any failure is caught by the source's
try/catch and surfaces as the single DecryptionError — modelled by none. -/
def decryptBlobEnvelope (dataB64 ivB64 wrappedKeyB64 keyIvB64 : List Char) :
    Option (List Byte) :=
  (base64ToArrayBuffer keyIvB64).bind fun keyIv =>
  (base64ToArrayBuffer wrappedKeyB64).bind fun wrappedKey =>
  (aeadDecrypt appKeyBytes keyIv wrappedKey).bind fun dekRaw =>
  (base64ToArrayBuffer ivB64).bind fun iv =>
  (base64ToArrayBuffer dataB64).bind fun encryptedData =>
  aeadDecrypt dekRaw iv encryptedData

/-! ### Project Migrator/Loader: embedding of AppComponent.onProjectLoad -/

/-- One entry of the document's hdris array.  Fields the JSON may lack are
Options; encrypted models the JS truthiness of the encrypted property (absent =
false). -/
structure HdriEntry where
  name : String
  data : List Char
  encrypted : Bool
  iv : Option (List Char)
  wrappedKey : Option (List Char)
  keyIv : Option (List Char)
  deriving DecidableEq

/-- One asset of the in-memory project after loading. -/
structure LoadedHdri where
  name : String
  bytes : List Byte
  deriving DecidableEq

/-- The settings block of the document; only the field the claims touch is
carried, the rest are copied verbatim by the loader. -/
structure ProjectSettings where
  selectedHdriName : Option String
  deriving DecidableEq

/-- The parsed document: top-level fields that may be absent are Options. -/
structure ProjectDoc where
  version : Option String
  settings : Option ProjectSettings
  hdris : Option (List HdriEntry)
  deriving DecidableEq

/-- The in-memory result of a successful load, with the per-asset warnings
(alerts) raised along the way. -/
structure LoadResult where
  hdris : List LoadedHdri
  selectedHdriName : Option String
  warnings : List String
  deriving DecidableEq

/-- The message of the Error thrown for a structurally invalid document. -/
def invalidFormatMessage : String := "Invalid project file format."

/-- The exception window.atob throws on a string that is not valid base64. -/
def invalidCharacterMessage : String := "InvalidCharacterError"

/-- The alert raised when envelope decryption of an asset fails. -/
def decryptWarning (name : String) : String :=
  "Could not decrypt HDRI: " ++ name ++
  ". The project key may not match or file is corrupted."

/-- The alert raised for an asset using the retired V1.6 encryption scheme. -/
def legacyEncWarning : String :=
  "Legacy V1.6 Encrypted file detected. This version only supports V1.7 Envelope Encryption."

/-- The marker the legacy data URL is split on. -/
def dataUrlMarker : List Char := [';', 'b', 'a', 's', 'e', '6', '4', ',']

/-- The payload after the first ";base64," marker, as base64.split produces it. -/
def splitAfterMarker : List Char → Option (List Char)
  | [] => none
  | c :: rest =>
    if (c :: rest).take 8 = dataUrlMarker then some ((c :: rest).drop 8)
    else splitAfterMarker rest

/-- Embedding of AppComponent.base64ToBlob: split the string on ";base64," and
atob the part after the marker.  When the marker is absent, parts[1] is
undefined and atob receives the nine-character string "undefined", which is not
valid base64 — the call throws; none models the throw. -/
def base64ToBlob (s : List Char) : Option (List Byte) :=
  match splitAfterMarker s with
  | some payload => base64ToArrayBuffer payload
  | none => base64ToArrayBuffer (String.toList "undefined")

/-- What one iteration of the hdris loop does with one entry. -/
inductive EntryOutcome
  | decrypted (bytes : List Byte)
  | decryptFailed
  | legacyEncrypted
  | legacyDecoded (bytes : List Byte)
  | legacyFailed
  deriving DecidableEq

/-- The branch selection of the hdris loop body in onProjectLoad: an entry with
encrypted, iv, wrappedKey and keyIv all present goes through decryptBlobEnvelope
(a failure is caught, alerted and skipped with continue); an entry marked
encrypted but missing a field is the retired V1.6 scheme (alerted, skipped); any
other entry is legacy base64, decoded by base64ToBlob outside any try/catch. -/
def entryOutcome (e : HdriEntry) : EntryOutcome :=
  if e.encrypted then
    match e.iv, e.wrappedKey, e.keyIv with
    | some iv, some wk, some kiv =>
      match decryptBlobEnvelope e.data iv wk kiv with
      | some bytes => .decrypted bytes
      | none => .decryptFailed
    | _, _, _ => .legacyEncrypted
  else
    match base64ToBlob e.data with
    | some bytes => .legacyDecoded bytes
    | none => .legacyFailed

/-- Embedding of the per-asset loop of onProjectLoad: assets are processed in
document order; decryption failures and unsupported legacy encryption raise a
warning and are excluded; a throw from base64ToBlob escapes the loop. -/
def loadHdris : List HdriEntry → Except String (List LoadedHdri × List String)
  | [] => .ok ([], [])
  | e :: rest =>
    match entryOutcome e with
    | .decrypted bytes =>
      (loadHdris rest).bind fun (l, w) => .ok (⟨e.name, bytes⟩ :: l, w)
    | .decryptFailed =>
      (loadHdris rest).bind fun (l, w) => .ok (l, decryptWarning e.name :: w)
    | .legacyEncrypted =>
      (loadHdris rest).bind fun (l, w) => .ok (l, legacyEncWarning :: w)
    | .legacyDecoded bytes =>
      (loadHdris rest).bind fun (l, w) => .ok (⟨e.name, bytes⟩ :: l, w)
    | .legacyFailed => .error invalidCharacterMessage

/-- Embedding of AppComponent.onProjectLoad after JSON.parse: the only structural
validation is the truthiness check of version, hdris and settings (an empty
version string is falsy in JS); then the hdris loop runs, and the stored
selection is copied verbatim into the result by
this.selectedHdriName.set(project.settings.selectedHdriName). -/
def onProjectLoad (doc : ProjectDoc) : Except String LoadResult :=
  match doc.version, doc.hdris, doc.settings with
  | some v, some hs, some st =>
    if v = "" then .error invalidFormatMessage
    else
      (loadHdris hs).bind fun (loaded, warns) =>
        .ok { hdris := loaded, selectedHdriName := st.selectedHdriName,
              warnings := warns }
  | _, _, _ => .error invalidFormatMessage

/-! ### Project Serializer: embedding of AppComponent.saveProject -/

/-- One asset to be saved, with the bytes its Blob would deliver and the
randomness drawn for its encryption.  fileBytes models hdri.file; when it is
absent the source fetches hdri.url, which may reject — fetchResult none models a
rejected fetch. -/
structure HdriToSave where
  name : String
  fileBytes : Option (List Byte)
  fetchResult : Option (List Byte)
  dek : List Byte
  contentIv : List Byte
  keyIv : List Byte
  deriving DecidableEq

/-- One saved asset entry of the V1.7 document. -/
structure SavedHdri where
  name : String
  packet : EncryptedPacket
  deriving DecidableEq

/-- The assembled V1.7 document. -/
structure SavedDocument where
  version : String
  hdris : List SavedHdri
  deriving DecidableEq

/-- Embedding of one element of hdriDataPromises in saveProject: resolve the
blob (from the file, or by fetching the url), then envelope-encrypt it.  An
error models the rejection of that asset's promise. -/
def encryptHdriForSave (h : HdriToSave) : Except String SavedHdri :=
  match h.fileBytes, h.fetchResult with
  | some blob, _ =>
      .ok ⟨h.name, encryptBlobEnvelope blob h.dek h.contentIv h.keyIv⟩
  | none, some blob =>
      .ok ⟨h.name, encryptBlobEnvelope blob h.dek h.contentIv h.keyIv⟩
  | none, none => .error "fetch failed"

/-- The Promise.all join: succeeds with all results exactly when every per-asset
promise resolved, and rejects when any rejected. -/
def joinAll : List (Except String SavedHdri) → Except String (List SavedHdri)
  | [] => .ok []
  | r :: rest =>
    r.bind fun x => (joinAll rest).bind fun xs => .ok (x :: xs)

/-- Embedding of saveProject: fan out the per-asset encryptions, join them all,
and only then assemble and write the single V1.7 document.  The try/catch means
a rejection anywhere makes the whole save fail with nothing written. -/
def saveProject (assets : List HdriToSave) : Except String SavedDocument :=
  (joinAll (assets.map encryptHdriForSave)).bind fun saved =>
    .ok { version := "1.7", hdris := saved }

/-! ### Key Manager concurrency: interleaving model of getAppKey
JavaScript is single-threaded but getAppKey suspends at await importKey, so a
call is two atomic blocks: (1) the cache check plus de-obfuscation plus starting
the import, and (2) from the resume: storing the handle into _cachedKey, zeroing
keyBytes and returning the handle.  Concurrent calls interleave these blocks. -/

/-- The cryptographic provider: how many CryptoKey handles it has constructed
and from which material each was imported. -/
structure CryptoProviderState where
  nextId : Nat
  importedMaterial : List (List Byte)
  deriving DecidableEq

/-- The service's shared mutable state: the _cachedKey field plus the provider. -/
structure KeyManagerState where
  cachedKey : Option Nat
  provider : CryptoProviderState
  deriving DecidableEq

/-- Where one getAppKey call stands between its atomic blocks. -/
inductive GetAppKeyPhase
  | ready
  | awaitingImport (id : Nat)
  | returned (id : Nat)
  deriving DecidableEq

/-- One atomic block of one getAppKey call.  From ready: if _cachedKey is set,
return it at once; otherwise start importKey on appKeyBytes, allocating a fresh
handle, and suspend.  From the suspension: assign _cachedKey and return the own
handle. -/
def stepGetAppKey (s : KeyManagerState) (p : GetAppKeyPhase) :
    KeyManagerState × GetAppKeyPhase :=
  match p with
  | .ready =>
    match s.cachedKey with
    | some k => (s, .returned k)
    | none =>
        ({ s with provider :=
            { nextId := s.provider.nextId + 1,
              importedMaterial := s.provider.importedMaterial ++ [appKeyBytes] } },
         .awaitingImport s.provider.nextId)
  | .awaitingImport id => ({ s with cachedKey := some id }, .returned id)
  | .returned id => (s, .returned id)

/-- Two in-flight getAppKey calls over the shared state. -/
structure TwoCalls where
  state : KeyManagerState
  callA : GetAppKeyPhase
  callB : GetAppKeyPhase
  deriving DecidableEq

/-- Run a schedule: true steps call A, false steps call B. -/
def runSchedule : List Bool → TwoCalls → TwoCalls
  | [], t => t
  | b :: rest, t =>
    if b then
      let n := stepGetAppKey t.state t.callA
      runSchedule rest { state := n.1, callA := n.2, callB := t.callB }
    else
      let n := stepGetAppKey t.state t.callB
      runSchedule rest { state := n.1, callA := t.callA, callB := n.2 }

/-- Two first calls racing on an empty cache. -/
def initialTwoCalls : TwoCalls :=
  { state := { cachedKey := none, provider := { nextId := 0, importedMaterial := [] } },
    callA := .ready, callB := .ready }

/-- Both calls pass the cache check before either import resolves. -/
def racySchedule : List Bool := [true, false, true, false]

/-- The second call starts only after the first has returned. -/
def sequentialSchedule : List Bool := [true, true, false]

/-- A structurally complete document from a version, settings and asset list. -/
def mkDoc (v : String) (st : ProjectSettings) (hs : List HdriEntry) : ProjectDoc :=
  { version := some v, settings := some st, hdris := some hs }

/-! ### Concrete documents used by witnesses and counterexamples -/

/-- A valid packet for the bytes [1, 2]. -/
def wPacket1 : EncryptedPacket :=
  encryptBlobEnvelope [mkByte 1, mkByte 2] [mkByte 5] [mkByte 7] [mkByte 9]

/-- A valid packet for the byte [3]. -/
def wPacket3 : EncryptedPacket :=
  encryptBlobEnvelope [mkByte 3] [mkByte 6] [mkByte 8] [mkByte 10]

/-- A well-formed encrypted asset entry. -/
def wEntry1 : HdriEntry :=
  { name := "alpha", data := wPacket1.data, encrypted := true,
    iv := some wPacket1.iv, wrappedKey := some wPacket1.wrappedKey,
    keyIv := some wPacket1.keyIv }

/-- The same asset with its wrappedKey replaced by sixteen zero bytes, which
fails the AEAD tag verification during unwrap. -/
def wEntryCorrupt : HdriEntry :=
  { name := "beta", data := wPacket1.data, encrypted := true,
    iv := some wPacket1.iv,
    wrappedKey := some (arrayBufferToBase64 (List.replicate 16 (mkByte 0))),
    keyIv := some wPacket1.keyIv }

/-- A second well-formed encrypted asset entry. -/
def wEntry3 : HdriEntry :=
  { name := "gamma", data := wPacket3.data, encrypted := true,
    iv := some wPacket3.iv, wrappedKey := some wPacket3.wrappedKey,
    keyIv := some wPacket3.keyIv }

/-- A legacy asset whose data string has no ";base64," marker and is not valid
base64, so base64ToBlob throws on it. -/
def badLegacyEntry : HdriEntry :=
  { name := "delta", data := String.toList "hello", encrypted := false,
    iv := none, wrappedKey := none, keyIv := none }

/-- Three encrypted assets; only the second is corrupted. -/
def threeAssetDoc : ProjectDoc :=
  { version := some "1.7", settings := some { selectedHdriName := some "alpha" },
    hdris := some [wEntry1, wEntryCorrupt, wEntry3] }

/-- A structurally complete document with the unrecognized version "9.9". -/
def unrecognizedVersionDoc : ProjectDoc :=
  { version := some "9.9", settings := some { selectedHdriName := none },
    hdris := some [] }

/-- A document with no version field. -/
def missingVersionDoc : ProjectDoc :=
  { version := none, settings := some { selectedHdriName := none },
    hdris := some [] }

/-- A document whose stored selection names its only asset, which is corrupted
and hence excluded by the load. -/
def corruptSelectedDoc : ProjectDoc :=
  { version := some "1.7", settings := some { selectedHdriName := some "beta" },
    hdris := some [wEntryCorrupt] }

/-- A document whose second asset is an invalid legacy entry. -/
def legacyFailDoc : ProjectDoc :=
  { version := some "1.0", settings := some { selectedHdriName := none },
    hdris := some ([wEntry1] ++ badLegacyEntry :: []) }

/-- An asset whose blob resolves from its file. -/
def goodAsset : HdriToSave :=
  { name := "ok", fileBytes := some [mkByte 4], fetchResult := none,
    dek := [mkByte 5], contentIv := [mkByte 7], keyIv := [mkByte 9] }

/-- An asset with no file whose url fetch rejects, so its encryption promise
rejects. -/
def badAsset : HdriToSave :=
  { name := "bad", fileBytes := none, fetchResult := none,
    dek := [mkByte 5], contentIv := [mkByte 7], keyIv := [mkByte 9] }

/-! ### Codec, cipher and envelope lemmas -/

theorem mkByte_val (a : Byte) : mkByte a.val = a :=
  Fin.ext (Nat.mod_eq_of_lt a.isLt)

theorem base64CharVal_sextet (n : Nat) (h : n < 64) :
    base64CharVal (sextet n) = some n := by
  have hall : ∀ m : Fin 64, base64CharVal (sextet m.val) = some m.val := by decide
  exact hall ⟨n, h⟩

theorem sextet_ne_pad (n : Nat) (h : n < 64) : sextet n ≠ '=' := by
  have hall : ∀ m : Fin 64, sextet m.val ≠ '=' := by decide
  exact hall ⟨n, h⟩

/-- Recursion principle following the three-byte grouping of the codec. -/
theorem byteChunkInduction {P : List Byte → Prop} (h0 : P []) (h1 : ∀ a, P [a])
    (h2 : ∀ a b, P [a, b])
    (h3 : ∀ a b c rest, P rest → P (a :: b :: c :: rest)) :
    ∀ l, P l
  | [] => h0
  | [a] => h1 a
  | [a, b] => h2 a b
  | a :: b :: c :: rest => h3 a b c rest (byteChunkInduction h0 h1 h2 h3 rest)

theorem decode4_encode_one (a : Byte) :
    decode4 (sextet (a.val / 4)) (sextet (a.val % 4 * 16)) '=' '=' = some [a] := by
  have ha := a.isLt
  have h1 := base64CharVal_sextet (a.val / 4) (by omega)
  have h2 := base64CharVal_sextet (a.val % 4 * 16) (by omega)
  rw [decode4, h1, Option.some_bind, h2, Option.some_bind, if_pos rfl, if_pos rfl]
  have e1 : mkByte (a.val / 4 * 4 + a.val % 4 * 16 / 16) = a := by
    apply Fin.ext
    show (a.val / 4 * 4 + a.val % 4 * 16 / 16) % 256 = a.val
    omega
  rw [e1]

theorem decode4_encode_two (a b : Byte) :
    decode4 (sextet (a.val / 4)) (sextet (a.val % 4 * 16 + b.val / 16))
      (sextet (b.val % 16 * 4)) '=' = some [a, b] := by
  have ha := a.isLt
  have hb := b.isLt
  have h1 := base64CharVal_sextet (a.val / 4) (by omega)
  have h2 := base64CharVal_sextet (a.val % 4 * 16 + b.val / 16) (by omega)
  have h3 := base64CharVal_sextet (b.val % 16 * 4) (by omega)
  have n3 := sextet_ne_pad (b.val % 16 * 4) (by omega)
  rw [decode4, h1, Option.some_bind, h2, Option.some_bind, if_neg n3, h3,
    Option.some_bind, if_pos rfl]
  have e1 : mkByte (a.val / 4 * 4 + (a.val % 4 * 16 + b.val / 16) / 16) = a := by
    apply Fin.ext
    show (a.val / 4 * 4 + (a.val % 4 * 16 + b.val / 16) / 16) % 256 = a.val
    omega
  have e2 : mkByte ((a.val % 4 * 16 + b.val / 16) % 16 * 16 + b.val % 16 * 4 / 4) = b := by
    apply Fin.ext
    show ((a.val % 4 * 16 + b.val / 16) % 16 * 16 + b.val % 16 * 4 / 4) % 256 = b.val
    omega
  rw [e1, e2]

theorem decode4_encode_full (a b c : Byte) :
    decode4 (sextet (a.val / 4)) (sextet (a.val % 4 * 16 + b.val / 16))
      (sextet (b.val % 16 * 4 + c.val / 64)) (sextet (c.val % 64)) = some [a, b, c] := by
  have ha := a.isLt
  have hb := b.isLt
  have hc := c.isLt
  have h1 := base64CharVal_sextet (a.val / 4) (by omega)
  have h2 := base64CharVal_sextet (a.val % 4 * 16 + b.val / 16) (by omega)
  have h3 := base64CharVal_sextet (b.val % 16 * 4 + c.val / 64) (by omega)
  have h4 := base64CharVal_sextet (c.val % 64) (by omega)
  have n3 := sextet_ne_pad (b.val % 16 * 4 + c.val / 64) (by omega)
  have n4 := sextet_ne_pad (c.val % 64) (by omega)
  rw [decode4, h1, Option.some_bind, h2, Option.some_bind, if_neg n3, h3,
    Option.some_bind, if_neg n4, h4, Option.some_bind]
  have e1 : mkByte (a.val / 4 * 4 + (a.val % 4 * 16 + b.val / 16) / 16) = a := by
    apply Fin.ext
    show (a.val / 4 * 4 + (a.val % 4 * 16 + b.val / 16) / 16) % 256 = a.val
    omega
  have e2 : mkByte ((a.val % 4 * 16 + b.val / 16) % 16 * 16 +
      (b.val % 16 * 4 + c.val / 64) / 4) = b := by
    apply Fin.ext
    show ((a.val % 4 * 16 + b.val / 16) % 16 * 16 +
      (b.val % 16 * 4 + c.val / 64) / 4) % 256 = b.val
    omega
  have e3 : mkByte ((b.val % 16 * 4 + c.val / 64) % 4 * 64 + c.val % 64) = c := by
    apply Fin.ext
    show ((b.val % 16 * 4 + c.val / 64) % 4 * 64 + c.val % 64) % 256 = c.val
    omega
  rw [e1, e2, e3]

theorem decode_encode (b : List Byte) :
    base64ToArrayBuffer (arrayBufferToBase64 b) = some b := by
  induction b using byteChunkInduction with
  | h0 => rfl
  | h1 a =>
    rw [arrayBufferToBase64, base64ToArrayBuffer, decode4_encode_one a]
    rfl
  | h2 a b =>
    rw [arrayBufferToBase64, base64ToArrayBuffer, decode4_encode_two a b]
    rfl
  | h3 a b c rest ih =>
    rw [arrayBufferToBase64, base64ToArrayBuffer, decode4_encode_full a b c, ih]
    rfl

theorem encode_length (b : List Byte) :
    (arrayBufferToBase64 b).length = (b.length + 2) / 3 * 4 := by
  induction b using byteChunkInduction with
  | h0 => rfl
  | h1 a =>
    rw [arrayBufferToBase64]
    simp only [List.length_cons, List.length_nil]
  | h2 a b =>
    rw [arrayBufferToBase64]
    simp only [List.length_cons, List.length_nil]
  | h3 a b c rest ih =>
    rw [arrayBufferToBase64]
    simp only [List.length_cons, ih]
    omega

theorem maskBytes_length (key iv : List Byte) :
    ∀ (i : Nat) (pt : List Byte), (maskBytes key iv i pt).length = pt.length
  | _, [] => rfl
  | i, p :: rest => by
    simp only [maskBytes, List.length_cons, maskBytes_length key iv (i + 1) rest]

theorem unmask_mask (key iv : List Byte) :
    ∀ (i : Nat) (pt : List Byte), unmaskBytes key iv i (maskBytes key iv i pt) = pt
  | _, [] => rfl
  | i, p :: rest => by
    rw [maskBytes, unmaskBytes, unmask_mask key iv (i + 1) rest]
    have hp := p.isLt
    have e : mkByte ((mkByte (p.val + keystream key iv i)).val + 256 -
        keystream key iv i % 256) = p := by
      apply Fin.ext
      show ((p.val + keystream key iv i) % 256 + 256 - keystream key iv i % 256) % 256
        = p.val
      omega
    rw [e]

theorem aead_roundtrip (key iv pt : List Byte) :
    aeadDecrypt key iv (aeadEncrypt key iv pt) = some pt := by
  have hm := maskBytes_length key iv 0 pt
  have htag : (aeadTag key iv (maskBytes key iv 0 pt)).length = 16 := by
    simp [aeadTag]
  rw [aeadEncrypt, aeadDecrypt]
  simp only [List.length_append, htag, hm]
  rw [if_neg (by omega)]
  have hsub : pt.length + 16 - 16 = (maskBytes key iv 0 pt).length := by omega
  rw [hsub, List.take_left, List.drop_left, if_pos rfl, unmask_mask]

theorem envelope_roundtrip (blobBytes dek iv keyIv : List Byte) :
    decryptBlobEnvelope (encryptBlobEnvelope blobBytes dek iv keyIv).data
      (encryptBlobEnvelope blobBytes dek iv keyIv).iv
      (encryptBlobEnvelope blobBytes dek iv keyIv).wrappedKey
      (encryptBlobEnvelope blobBytes dek iv keyIv).keyIv = some blobBytes := by
  simp only [encryptBlobEnvelope, decryptBlobEnvelope, decode_encode,
    Option.some_bind, aead_roundtrip]

/-! ### Lemmas about the loader and the save join -/

theorem loadHdris_fatal (pre : List HdriEntry) (e : HdriEntry) (post : List HdriEntry)
    (hpre : ∀ x ∈ pre, entryOutcome x ≠ .legacyFailed)
    (he : entryOutcome e = .legacyFailed) :
    loadHdris (pre ++ e :: post) = .error invalidCharacterMessage := by
  induction pre with
  | nil => rw [List.nil_append, loadHdris, he]
  | cons x xs ih =>
    have hx : entryOutcome x ≠ .legacyFailed := hpre x (by simp)
    have ih2 := ih fun y hy => hpre y (by simp [hy])
    rw [List.cons_append, loadHdris]
    cases hox : entryOutcome x with
    | decrypted bytes => rw [ih2]; rfl
    | decryptFailed => rw [ih2]; rfl
    | legacyEncrypted => rw [ih2]; rfl
    | legacyDecoded bytes => rw [ih2]; rfl
    | legacyFailed => exact absurd hox hx

theorem loadHdris_ok (l : List HdriEntry)
    (h : ∀ x ∈ l, entryOutcome x ≠ .legacyFailed) :
    ∃ p, loadHdris l = .ok p := by
  induction l with
  | nil => exact ⟨([], []), rfl⟩
  | cons x xs ih =>
    obtain ⟨⟨lst, w⟩, hp⟩ := ih fun y hy => h y (by simp [hy])
    cases hox : entryOutcome x with
    | decrypted bytes =>
      exact ⟨(⟨x.name, bytes⟩ :: lst, w), by rw [loadHdris, hox, hp]; rfl⟩
    | decryptFailed =>
      exact ⟨(lst, decryptWarning x.name :: w), by rw [loadHdris, hox, hp]; rfl⟩
    | legacyEncrypted =>
      exact ⟨(lst, legacyEncWarning :: w), by rw [loadHdris, hox, hp]; rfl⟩
    | legacyDecoded bytes =>
      exact ⟨(⟨x.name, bytes⟩ :: lst, w), by rw [loadHdris, hox, hp]; rfl⟩
    | legacyFailed => exact absurd hox (h x (by simp))

theorem joinAll_error (rs : List (Except String SavedHdri))
    (r : Except String SavedHdri) (hr : r ∈ rs) (m : String) (hm : r = .error m) :
    ∃ m2, joinAll rs = .error m2 := by
  induction rs with
  | nil => cases hr
  | cons x xs ih =>
    rcases List.mem_cons.mp hr with h | h
    · exact ⟨m, by rw [joinAll, ← h, hm]; rfl⟩
    · cases x with
      | error mx => exact ⟨mx, by rw [joinAll]; rfl⟩
      | ok vx =>
        obtain ⟨m2, h2⟩ := ih h
        exact ⟨m2, by rw [joinAll, h2]; rfl⟩

theorem joinAll_ok (rs : List (Except String SavedHdri))
    (h : ∀ r ∈ rs, ∃ s, r = .ok s) :
    ∃ l, joinAll rs = .ok l ∧ l.length = rs.length := by
  induction rs with
  | nil => exact ⟨[], rfl, rfl⟩
  | cons x xs ih =>
    obtain ⟨s, hs⟩ := h x (by simp)
    obtain ⟨l, hl, hlen⟩ := ih fun r hr => h r (by simp [hr])
    refine ⟨s :: l, ?_, by simp [hlen]⟩
    rw [joinAll, hs, hl]
    rfl

/-! ### Claim theorems -/

/-- C1: for every byte buffer, every DEK and every pair of nonces, decrypting the
four text-encoded fields of the packet produced by encryptBlobEnvelope yields
exactly the original bytes. -/
theorem encrypt_decrypt_roundtrip (blobBytes dek iv keyIv : List Byte) :
    decryptBlobEnvelope (encryptBlobEnvelope blobBytes dek iv keyIv).data
      (encryptBlobEnvelope blobBytes dek iv keyIv).iv
      (encryptBlobEnvelope blobBytes dek iv keyIv).wrappedKey
      (encryptBlobEnvelope blobBytes dek iv keyIv).keyIv = some blobBytes :=
  envelope_roundtrip blobBytes dek iv keyIv

/-- C2: a document whose hdris are three encrypted assets, of which only the
second fails AEAD verification, loads successfully into a project containing the
first and third assets, with the second excluded and exactly one warning
referencing the second asset's name. -/
theorem load_partial_failure_isolated (doc : ProjectDoc) (v : String)
    (st : ProjectSettings) (a1 a2 a3 : HdriEntry) (b1 b3 : List Byte)
    (hv : doc.version = some v) (hv0 : v ≠ "")
    (hst : doc.settings = some st)
    (hhd : doc.hdris = some [a1, a2, a3])
    (h1 : entryOutcome a1 = .decrypted b1)
    (h2 : entryOutcome a2 = .decryptFailed)
    (h3 : entryOutcome a3 = .decrypted b3) :
    onProjectLoad doc =
      .ok { hdris := [⟨a1.name, b1⟩, ⟨a3.name, b3⟩],
            selectedHdriName := st.selectedHdriName,
            warnings := [decryptWarning a2.name] } := by
  simp only [onProjectLoad, hv, hst, hhd, if_neg hv0, loadHdris, h1, h2, h3,
    Except.bind]

theorem load_partial_failure_isolated_witness :
    onProjectLoad threeAssetDoc =
      .ok { hdris := [⟨"alpha", [mkByte 1, mkByte 2]⟩, ⟨"gamma", [mkByte 3]⟩],
            selectedHdriName := some "alpha",
            warnings := [decryptWarning "beta"] } :=
  load_partial_failure_isolated threeAssetDoc "1.7"
    { selectedHdriName := some "alpha" } wEntry1 wEntryCorrupt wEntry3
    [mkByte 1, mkByte 2] [mkByte 3] rfl (by decide) rfl rfl
    (by decide) (by decide) (by decide)

/-- C3 counterexample: a structurally complete document carrying the
unrecognized version "9.9" is accepted by onProjectLoad — the load completes and
produces a project instead of failing with InvalidFormatError. -/
theorem unrecognized_version_accepted_cex :
    onProjectLoad unrecognizedVersionDoc =
      .ok { hdris := [], selectedHdriName := none, warnings := [] } := rfl

/-- C3 (amended): a document with no version field fails the whole load with the
invalid-format error and no project is produced, but a document with an
unrecognized version value such as "9.9" is accepted: the version tag is only
consulted to select feature paths, never validated against the known set. -/
theorem version_validation_amended :
    (∀ doc : ProjectDoc, doc.version = none →
      onProjectLoad doc = .error invalidFormatMessage)
    ∧ onProjectLoad unrecognizedVersionDoc =
        .ok { hdris := [], selectedHdriName := none, warnings := [] } := by
  constructor
  · intro doc h
    simp only [onProjectLoad, h]
  · rfl

theorem version_validation_amended_witness :
    onProjectLoad missingVersionDoc = .error invalidFormatMessage :=
  version_validation_amended.1 missingVersionDoc rfl

/-- C4 counterexample: at a concrete input with DEK byte 1, the buffer holding
the exported raw DEK bytes still contains the byte 1 — not the zero byte — when
encryptBlobEnvelope returns: the source never writes to dekRaw after the wrap,
so the claimed zeroing does not happen. -/
theorem dek_buffer_not_zeroed_cex :
    (encryptBlobEnvelopeTrace [] [mkByte 1] [] []).dekRawFinal = [mkByte 1]
    ∧ ((encryptBlobEnvelopeTrace [] [mkByte 1] [] []).dekRawFinal.all
        fun x => x == mkByte 0) = false := by decide

/-- C4 (amended): the raw exported DEK buffer is not zeroed after the wrap: at
return it still holds exactly the DEK bytes.  The only buffer the service zeroes
is the reconstructed KEK material inside getAppKey, which is filled with zeros
after the import. -/
theorem dek_buffer_retained (blobBytes dek iv keyIv : List Byte) :
    (encryptBlobEnvelopeTrace blobBytes dek iv keyIv).dekRawFinal = dek
    ∧ getAppKeyTrace.keyBytesFinal = List.replicate 32 (mkByte 0) :=
  ⟨rfl, by decide⟩

/-- C5 counterexample: under the interleaving in which both first calls pass the
empty-cache check before either importKey resolves, getAppKey constructs two
CryptoKey instances, the two callers receive different instances, and the cache
ends up holding the second one. -/
theorem getAppKey_race_two_instances_cex :
    (runSchedule racySchedule initialTwoCalls).callA = .returned 0
    ∧ (runSchedule racySchedule initialTwoCalls).callB = .returned 1
    ∧ (runSchedule racySchedule initialTwoCalls).state.provider.nextId = 2
    ∧ (runSchedule racySchedule initialTwoCalls).state.cachedKey = some 1 := by
  decide

/-- C5 (amended): getAppKey is not single-flight: two concurrent first calls can
each construct a distinct CryptoKey instance and return different instances;
both instances are nevertheless imported from the same fixed appKeyBytes, and a
call that starts only after the cache is populated returns the cached instance
without a new construction. -/
theorem getAppKey_not_single_flight :
    ((runSchedule racySchedule initialTwoCalls).state.provider.importedMaterial
        = [appKeyBytes, appKeyBytes]
      ∧ (runSchedule racySchedule initialTwoCalls).callA = .returned 0
      ∧ (runSchedule racySchedule initialTwoCalls).callB = .returned 1)
    ∧ ((runSchedule sequentialSchedule initialTwoCalls).callA = .returned 0
      ∧ (runSchedule sequentialSchedule initialTwoCalls).callB = .returned 0
      ∧ (runSchedule sequentialSchedule initialTwoCalls).state.provider.nextId = 1) := by
  decide

/-- C6 counterexample: loading a document whose stored selection names its only
asset, which fails to decrypt and is excluded, succeeds with an empty asset list
but sets the selection to the stored name — it is not left unset. -/
theorem selection_kept_when_asset_missing_cex :
    onProjectLoad corruptSelectedDoc =
      .ok { hdris := [], selectedHdriName := some "beta",
            warnings := [decryptWarning "beta"] } := rfl

/-- C6 (amended): the load does not fail when the selected asset is missing, but
the selection is not left unset either: onProjectLoad copies the document's
stored selectedHdriName into the result verbatim, whether or not an asset of
that name was loaded. -/
theorem selection_copied_verbatim (doc : ProjectDoc) (st : ProjectSettings)
    (r : LoadResult) (hst : doc.settings = some st)
    (h : onProjectLoad doc = .ok r) :
    r.selectedHdriName = st.selectedHdriName := by
  cases hver : doc.version with
  | none =>
    simp only [onProjectLoad, hver] at h
    exact absurd h (by simp)
  | some v =>
    cases hhd : doc.hdris with
    | none =>
      simp only [onProjectLoad, hver, hhd] at h
      exact absurd h (by simp)
    | some hs =>
      simp only [onProjectLoad, hver, hhd, hst] at h
      by_cases hv : v = ""
      · rw [if_pos hv] at h
        exact absurd h (by simp)
      · rw [if_neg hv] at h
        cases hl : loadHdris hs with
        | error m =>
          rw [hl] at h
          exact absurd h (by simp [Except.bind])
        | ok p =>
          obtain ⟨l, w⟩ := p
          rw [hl] at h
          simp only [Except.bind] at h
          cases h
          rfl

theorem selection_copied_verbatim_witness :
    ({ hdris := [], selectedHdriName := some "beta",
       warnings := [decryptWarning "beta"] } : LoadResult).selectedHdriName
      = some "beta" :=
  selection_copied_verbatim corruptSelectedDoc { selectedHdriName := some "beta" }
    { hdris := [], selectedHdriName := some "beta",
      warnings := [decryptWarning "beta"] } rfl rfl

/-- C7: document assembly is an all-or-nothing join over the independent
per-asset encryptions: if any asset's encryption promise rejects, the whole save
fails and no document is produced; if all resolve, one complete document with
every asset is assembled. -/
theorem save_all_or_nothing (assets : List HdriToSave) :
    ((∃ a ∈ assets, ∃ m, encryptHdriForSave a = .error m) →
      ∃ m2, saveProject assets = .error m2)
    ∧ ((∀ a ∈ assets, ∃ s, encryptHdriForSave a = .ok s) →
      ∃ d, saveProject assets = .ok d ∧ d.version = "1.7"
        ∧ d.hdris.length = assets.length) := by
  constructor
  · rintro ⟨a, ha, m, hm⟩
    obtain ⟨m2, h2⟩ := joinAll_error (assets.map encryptHdriForSave)
      (encryptHdriForSave a) (List.mem_map_of_mem encryptHdriForSave ha) m hm
    exact ⟨m2, by rw [saveProject, h2]; rfl⟩
  · intro hall
    have hall2 : ∀ r ∈ assets.map encryptHdriForSave, ∃ s, r = .ok s := by
      intro r hr
      obtain ⟨a, ha, hae⟩ := List.mem_map.mp hr
      rw [← hae]
      exact hall a ha
    obtain ⟨l, hl, hlen⟩ := joinAll_ok (assets.map encryptHdriForSave) hall2
    refine ⟨{ version := "1.7", hdris := l }, ?_, rfl, ?_⟩
    · rw [saveProject, hl]
      rfl
    · rw [hlen, List.length_map]

theorem save_all_or_nothing_witness :
    ∃ m2, saveProject [goodAsset, badAsset] = .error m2 :=
  (save_all_or_nothing [goodAsset, badAsset]).1
    ⟨badAsset, by decide, "fetch failed", rfl⟩

/-- C8: the binary/text codec is a reversible radix-64 mapping: decoding the
encoding of any byte buffer returns the buffer, and the encoded length is
ceil(len/3)*4 characters, padding included. -/
theorem codec_roundtrip_and_length :
    (∀ b : List Byte, base64ToArrayBuffer (arrayBufferToBase64 b) = some b)
    ∧ ∀ b : List Byte, (arrayBufferToBase64 b).length = (b.length + 2) / 3 * 4 :=
  ⟨decode_encode, encode_length⟩

/-- C9: the application key is one fixed 32-byte constant in every process and
getAppKey imports exactly these bytes, so a packet produced by any process
decrypts in any other; but XORing the concatenated seed arrays with 0x42 does
NOT yield the ASCII bytes of the string the source comment documents
('SHV_2025_AES_GCM_SECRET_KEY_777!') — the seed data decodes to
'SDV_2025_=ES_GCM_SECRET_KEY_;;;!', differing at four positions, so the seed
arrays contradict the comment right above them. -/
theorem app_key_fixed_constant :
    appKeyBytes = asciiBytes "SDV_2025_=ES_GCM_SECRET_KEY_;;;!"
    ∧ (appKeyBytes == asciiBytes "SHV_2025_AES_GCM_SECRET_KEY_777!") = false
    ∧ appKeyBytes.length = 32
    ∧ getAppKeyTrace.importedKeyBytes = appKeyBytes
    ∧ ∀ blobBytes dek iv keyIv : List Byte,
        decryptBlobEnvelope (encryptBlobEnvelope blobBytes dek iv keyIv).data
          (encryptBlobEnvelope blobBytes dek iv keyIv).iv
          (encryptBlobEnvelope blobBytes dek iv keyIv).wrappedKey
          (encryptBlobEnvelope blobBytes dek iv keyIv).keyIv = some blobBytes :=
  ⟨by decide, by decide, by decide, rfl, envelope_roundtrip⟩

/-- C10: a legacy (non-encrypted) asset whose data string is not a decodable
";base64," data URL makes base64ToBlob throw; the exception escapes the
per-asset loop and the entire load aborts with a single error — whereas a
DecryptionError in the same position only skips that one asset and the load
still succeeds. -/
theorem legacy_decode_failure_aborts_load (v : String) (st : ProjectSettings)
    (pre post : List HdriEntry) (e : HdriEntry)
    (hv0 : v ≠ "")
    (hpre : ∀ x ∈ pre, entryOutcome x ≠ .legacyFailed)
    (he : e.encrypted = false) (hdec : base64ToBlob e.data = none) :
    onProjectLoad (mkDoc v st (pre ++ e :: post)) = .error invalidCharacterMessage
    ∧ ∀ e2 : HdriEntry, entryOutcome e2 = .decryptFailed →
        (∀ x ∈ post, entryOutcome x ≠ .legacyFailed) →
        ∃ r, onProjectLoad (mkDoc v st (pre ++ e2 :: post)) = .ok r := by
  have hfat : entryOutcome e = .legacyFailed := by
    simp [entryOutcome, he, hdec]
  constructor
  · simp only [mkDoc, onProjectLoad]
    rw [if_neg hv0, loadHdris_fatal pre e post hpre hfat]
    rfl
  · intro e2 he2 hpost
    have hall : ∀ x ∈ pre ++ e2 :: post, entryOutcome x ≠ .legacyFailed := by
      intro x hx
      rcases List.mem_append.mp hx with hmem | hmem
      · exact hpre x hmem
      · rcases List.mem_cons.mp hmem with hmem2 | hmem2
        · rw [hmem2, he2]
          simp
        · exact hpost x hmem2
    obtain ⟨⟨l, w⟩, hp⟩ := loadHdris_ok _ hall
    refine ⟨{ hdris := l, selectedHdriName := st.selectedHdriName,
              warnings := w }, ?_⟩
    simp only [mkDoc, onProjectLoad]
    rw [if_neg hv0, hp]
    rfl

theorem legacy_decode_failure_aborts_load_witness :
    onProjectLoad legacyFailDoc = .error invalidCharacterMessage :=
  (legacy_decode_failure_aborts_load "1.0" { selectedHdriName := none }
    [wEntry1] [] badLegacyEntry (by decide) (by decide) rfl (by decide)).1

end SHV
